import Mathlib

/-
Verification development for the congressional-data CSV ingestion pipeline
(src/app/ingest_csv.py).

The Python source is shallowly embedded below.  Conventions:

* Python strings are modelled as Lean `String` (the source runs the
  Python-2 byte-string API `str.translate(None, deletechars)`; byte-level
  deletion is modelled at character level, which coincides on the ASCII
  inputs exercised here).
* Python exceptions are modelled by the inductive `PyExc`; raising is
  modelled by `Except`.  `sys.exit` after `log_error_and_exit` is modelled
  by `RowFail.exit` carrying the log entry that was appended.
* `datetime.strptime(v, "%B-%d-%Y")` is modelled by `pyStrptimeBdY`.
  CPython compiles the strptime format to a regex with IGNORECASE, so the
  month name matches case-insensitively and `%d` accepts one or two digits;
  the model reproduces that.
* `float(v)` / `format(x, ".2f")` are modelled exactly over a decimal
  mantissa/exponent pair (`PyFloat`); this coincides with IEEE doubles on
  all inputs appearing in the theorems below (overflow to infinity for
  astronomically large literals is not modelled).
* Exception message strings are modelled loosely (the surrounding quotes
  that `str(KeyError(k))` adds, and tuple rendering for csv errors, are
  dropped); no theorem depends on the exact rendering.
-/

/-- Python whitespace set used by `str.split()` and `float()` stripping. -/
def pyWhitespace (c : Char) : Bool :=
  c = ' ' || c = '\t' || c = '\n' || c = '\r' || c = '\x0b' || c = '\x0c'

/-- Model of Python `str.strip()` (as applied implicitly by `float`). -/
def pyStrip (s : String) : String :=
  ⟨((s.data.dropWhile pyWhitespace).reverse.dropWhile pyWhitespace).reverse⟩

/-- Helper for `pySplitWhitespace`: the accumulator holds the current
token, reversed. -/
def pySplitWsGo : List Char → List Char → List String
  | [], cur => if cur.isEmpty then [] else [⟨cur.reverse⟩]
  | c :: cs, cur =>
    if pyWhitespace c then
      if cur.isEmpty then pySplitWsGo cs [] else ⟨cur.reverse⟩ :: pySplitWsGo cs []
    else pySplitWsGo cs (c :: cur)

/-- Model of Python `str.split()` with no argument: split on whitespace
runs, dropping empty tokens. -/
def pySplitWhitespace (s : String) : List String :=
  pySplitWsGo s.data []

/-- Helper for `splitOnDash`. -/
def splitOnDashGo : List Char → List Char → List String
  | [], cur => [⟨cur.reverse⟩]
  | c :: cs, cur =>
    if c = '-' then ⟨cur.reverse⟩ :: splitOnDashGo cs [] else splitOnDashGo cs (c :: cur)

/-- Model of Python `s.split("-")` (empty fields kept), as performed by the
strptime format regex at its literal dashes. -/
def splitOnDash (s : String) : List String :=
  splitOnDashGo s.data []

/-- Concatenation of a list of strings (Python `"".join`). -/
def strJoin : List String → String
  | [] => ""
  | s :: rest => s ++ strJoin rest

/-- Python `sep.join(parts)`. -/
def strIntercalate (sep : String) : List String → String
  | [] => ""
  | [s] => s
  | s :: rest => s ++ sep ++ strIntercalate sep rest

/-- Model of Python-2 `str.isdigit` (and of `str.isnumeric` on the ASCII
inputs exercised): non-empty and all ASCII digits. -/
def pyIsDigit (s : String) : Bool :=
  !s.isEmpty && s.data.all Char.isDigit

/-- Numeric value of a list of ASCII digit characters. -/
def digitsVal (cs : List Char) : Nat :=
  cs.foldl (fun n c => n * 10 + (c.toNat - 48)) 0

/-- ASCII lower-casing, as Python-2 `str.lower` in the C locale. -/
def pyToLowerStr (s : String) : String :=
  ⟨s.data.map Char.toLower⟩

/-- Model of Python-2 `value.translate(None, del)`: delete every character
occurring in `del`. -/
def pyTranslateDelete (s : String) (del : String) : String :=
  ⟨s.data.filter (fun c => !(del.data.contains c))⟩

/-- Helper for `pyTitle`: title-case a character list; the flag records
whether the previous character was alphabetic. -/
def pyTitleGo : List Char → Bool → List Char
  | [], _ => []
  | c :: cs, prevAlpha =>
    (if c.isAlpha then (if prevAlpha then c.toLower else c.toUpper) else c) ::
      pyTitleGo cs c.isAlpha

/-- Model of Python-2 `str.title()`: the first alphabetic character of each
alphabetic run is upper-cased, the rest lower-cased. -/
def pyTitle (s : String) : String :=
  ⟨pyTitleGo s.data false⟩

/-- Header mapping of the source (`expenditure_column_conversions`). -/
def expenditure_column_conversions : List (String × String) :=
  [("BIOGUIDE_ID", "bioguide_id"),
   ("OFFICE", "office"),
   ("QUARTER", "fiscal_quarter"),
   ("SORT SEQUENCE", "sort_sequence"),
   ("PROGRAM", "program_type"),
   ("CATEGORY", "expense_category"),
   ("DATE", "record_date"),
   ("PAYEE", "payee"),
   ("START DATE", "start_date"),
   ("END DATE", "end_date"),
   ("PURPOSE", "purpose"),
   ("AMOUNT", "amount"),
   ("YEAR", "fiscal_year"),
   ("RECIP (orig.)", "original_recipient"),
   ("", "old_payee")]

/-- List `char_list` of the source. -/
def char_list : List String := [".", ",", "\t", "¬", "≠", "!", "?", "="]

/-- List `slash_list` of the source. -/
def slash_list : List String := [" \\ ", " \\", "\\ "]

/-- List `amp_list` of the source. -/
def amp_list : List String := [" & ", "& ", " &"]

/-- Model of `normalize_entry` from the source.  Note that
`strIntercalate "&" amp_list` (the ampersand-join of `amp_list` in the
source) is a string whose character set is just space-and-ampersand, and
`translate` deletes by character set, so this pass deletes every space. -/
def normalize_entry (value : String) : String :=
  let n1 := pyTranslateDelete value (strJoin char_list)
  let n2 := pyTranslateDelete n1 (strIntercalate "&" amp_list)
  let n3 := pyTranslateDelete n2 (strIntercalate "\\" slash_list)
  let n4 := strIntercalate " " (pySplitWhitespace n3)
  pyTitle n4

/-- English month names, lower-cased, as matched by strptime `%B`. -/
def monthNames : List String :=
  ["january", "february", "march", "april", "may", "june", "july",
   "august", "september", "october", "november", "december"]

/-- Position of a string in a list, or `none`. -/
def monthIndexAux : List String → String → Nat → Option Nat
  | [], _, _ => none
  | m :: ms, t, i => if m = t then some i else monthIndexAux ms t (i + 1)

/-- Gregorian leap-year rule, as in Python `datetime`. -/
def isLeap (y : Nat) : Bool :=
  y % 4 == 0 && (y % 100 != 0 || y % 400 == 0)

/-- Days in a month, as validated by Python `datetime`. -/
def daysInMonth (y m : Nat) : Nat :=
  if m = 2 then (if isLeap y then 29 else 28)
  else if m = 4 ∨ m = 6 ∨ m = 9 ∨ m = 11 then 30 else 31

/-- Model of `datetime.strptime(s, "%B-%d-%Y")`, returning
`(year, month, day)`.  Month names match case-insensitively (CPython
compiles the pattern with IGNORECASE), the day is one or two digits in
1..31 and valid for the month, the year exactly four digits and at least
1. -/
def pyStrptimeBdY (s : String) : Option (Nat × Nat × Nat) :=
  match splitOnDash s with
  | [ms, ds, ys] =>
    match monthIndexAux monthNames (pyToLowerStr ms) 0 with
    | none => none
    | some i =>
      let m := i + 1
      if (ds.length = 1 ∨ ds.length = 2) ∧ pyIsDigit ds = true then
        let d := digitsVal ds.data
        if ys.length = 4 ∧ pyIsDigit ys = true then
          let y := digitsVal ys.data
          if 1 ≤ d ∧ d ≤ daysInMonth y m ∧ 1 ≤ y then some (y, m, d)
          else none
        else none
      else none
  | _ => none

/-- Message of the ValueError raised by a failed strptime (quotes of the
Python rendering dropped). -/
def strptimeMsg (v : String) : String :=
  "time data " ++ v ++ " does not match format %B-%d-%Y"

/-- Message of the ValueError raised by a failed `float(v)`. -/
def floatMsg (v : String) : String :=
  "could not convert string to float: " ++ v

/-- Value of a Python float literal: a decimal mantissa/exponent pair, or
one of the special values. -/
inductive PyFloat where
  | finite (m : Int) (k : Int)
  | inf
  | ninf
  | nan
  deriving DecidableEq

/-- Exponent suffix of a float literal: empty, or `e`/`E`, optional sign,
one or more digits. -/
def parseExp : List Char → Option Int
  | [] => some 0
  | c :: r =>
    if c = 'e' ∨ c = 'E' then
      match r with
      | '+' :: d =>
        if d ≠ [] ∧ d.all Char.isDigit then some (Int.ofNat (digitsVal d)) else none
      | '-' :: d =>
        if d ≠ [] ∧ d.all Char.isDigit then some (-(Int.ofNat (digitsVal d))) else none
      | d =>
        if d ≠ [] ∧ d.all Char.isDigit then some (Int.ofNat (digitsVal d)) else none
    else none

/-- Assemble a finite float from integer digits, fraction digits and the
rest of the input (which must be a valid exponent suffix). -/
def mkFinite (neg : Bool) (ip fp rest : List Char) : Option PyFloat :=
  if ip.isEmpty ∧ fp.isEmpty then none
  else
    match parseExp rest with
    | none => none
    | some e =>
      let mag : Int := Int.ofNat (digitsVal (ip ++ fp))
      some (.finite (if neg then -mag else mag) (e - Int.ofNat fp.length))

/-- Parse the unsigned part of a Python float literal. -/
def pyFloatCore (cs : List Char) (neg : Bool) : Option PyFloat :=
  let lowered : String := ⟨cs.map Char.toLower⟩
  if lowered = "inf" ∨ lowered = "infinity" then some (if neg then .ninf else .inf)
  else if lowered = "nan" then some .nan
  else
    let ip := cs.takeWhile Char.isDigit
    match cs.dropWhile Char.isDigit with
    | '.' :: r2 => mkFinite neg ip (r2.takeWhile Char.isDigit) (r2.dropWhile Char.isDigit)
    | rest => mkFinite neg ip [] rest

/-- Model of Python-2 `float(s)`: strip whitespace, optional sign, then a
decimal literal, `inf`, `infinity` or `nan`. -/
def pyFloatParse (s : String) : Option PyFloat :=
  match (pyStrip s).data with
  | '+' :: r => pyFloatCore r false
  | '-' :: r => pyFloatCore r true
  | r => pyFloatCore r false

/-- Round `n / 10 ^ j` to the nearest integer, ties to even, as `%.2f`
formatting does. -/
def halfEvenCents (n : Nat) (j : Nat) : Nat :=
  let D := 10 ^ j
  let q := n / D
  let r := n % D
  if 2 * r < D then q else if 2 * r > D then q + 1
  else if q % 2 = 0 then q else q + 1

/-- Two-digit zero-padded rendering. -/
def pad2 (n : Nat) : String :=
  if n < 10 then "0" ++ toString n else toString n

/-- Render a non-negative number of cents as a fixed-point string. -/
def fmtCents (cents : Nat) : String :=
  toString (cents / 100) ++ "." ++ pad2 (cents % 100)

/-- Model of `format(x, ".2f")`. -/
def pyFormatF2 : PyFloat → String
  | .inf => "inf"
  | .ninf => "-inf"
  | .nan => "nan"
  | .finite m k =>
    let n := m.natAbs
    let cents := if 0 ≤ k + 2 then n * 10 ^ (k + 2).toNat
                 else halfEvenCents n (-(k + 2)).toNat
    (if m < 0 then "-" else "") ++ fmtCents cents

/-- Python exceptions that the pipeline can raise. -/
inductive PyExc where
  | keyError (k : String)
  | valueError (msg : String)
  | indexError
  | attributeError (msg : String)
  | typeError (msg : String)
  | csvError (msg : String)
  | pgError (msg : String)
  deriving DecidableEq

/-- Values held in `row_keys_values`: strings, or the datetime produced by
strptime for the date fields. -/
inductive PyVal where
  | str (s : String)
  | date (y m d : Nat)
  deriving DecidableEq

/-- Python truthiness of a `PyVal` (`if value:`): a string is truthy iff
non-empty; a datetime is always truthy. -/
def truthy : PyVal → Bool
  | .str s => !s.isEmpty
  | .date _ _ _ => true

/-- Per-field normalization: the body of the loop in `process_row`,
mirroring its if/elif chain for one `(key, value)` pair. -/
def normalizeCell (key value : String) : Except PyExc PyVal :=
  if key = "start_date" ∨ key = "end_date" ∨ key = "record_date" then
    match pyStrptimeBdY value with
    | some (y, m, d) => .ok (.date y m d)
    | none => .error (.valueError (strptimeMsg value))
  else if key = "fiscal_year" ∧ pyIsDigit value = false then
    match (pySplitWhitespace value).getLast? with
    | some t => .ok (.str t)
    | none => .error .indexError
  else if key = "amount" then
    match pyFloatParse value with
    | some f => .ok (.str (pyFormatF2 f))
    | none => .error (.valueError (floatMsg value))
  else if key = "office" then
    if value.length > 4 ∧ pyIsDigit ⟨value.data.take 4⟩ = true then
      .ok (.str (normalize_entry ⟨value.data.drop 4⟩))
    else .ok (.str value)
  else if key = "payee" ∨ key = "original_recipient" ∨ key = "old_payee" then
    .ok (.str (normalize_entry value))
  else .ok (.str value)

/-- Python dict assignment `d[k] = v`: update in place if the key exists,
else append. -/
def dictInsert (d : List (String × PyVal)) (k : String) (v : PyVal) :
    List (String × PyVal) :=
  if d.any (fun p => p.1 == k) then
    d.map (fun p => if p.1 == k then (k, v) else p)
  else d ++ [(k, v)]

/-- Python dict lookup `d.get(k)`. -/
def dictLookup (d : List (String × PyVal)) (k : String) : Option PyVal :=
  match d.find? (fun p => p.1 == k) with
  | some p => some p.2
  | none => none

/-- The loop of `process_row`: walk the cells positionally, look up the
column name at the same index (raising IndexError past the end of
`column_names`), normalize, and keep truthy values. -/
def buildRecord :
    List String → List String → List (String × PyVal) →
      Except PyExc (List (String × PyVal))
  | [], _, acc => .ok acc
  | _ :: _, [], _ => .error .indexError
  | v :: vs, c :: cs, acc =>
    match normalizeCell c v with
    | .error e => .error e
    | .ok val => buildRecord vs cs (if truthy val then dictInsert acc c val else acc)

/-- Failure of one row-processing step: a raised Python exception, or a
`sys.exit` issued by `log_error_and_exit` (carrying the appended log
entry). -/
inductive RowFail where
  | exc (e : PyExc)
  | exit (entry : String)
  deriving DecidableEq

/-- Final abnormal outcome of the process: terminated through the
log-and-exit path (entry appended to the log file, `sys.exit` with the
entry, status 1), or killed by an uncaught exception (status 1, nothing
logged). -/
inductive Fatal where
  | logged (entry : String)
  | uncaught (e : PyExc)
  deriving DecidableEq

/-- Model of `log_error_and_exit`: the log line it appends (and passes to
`sys.exit`).  The timestamp `ts` stands for `datetime.now()`. -/
def log_error_and_exit (ts msg : String) : String :=
  ts ++ " - Error message: " ++ msg ++ " \n"

/-- Rendering of a KeyError for the log message (Python wraps the key in
quotes; modelled as the bare key). -/
def keyErrorStr (k : String) : String := k

/-- Disposition of an exception raised inside the row loop of
`process_csvs`: only `csv.Error` is caught (and routed through
`log_error_and_exit`); every other exception propagates uncaught. -/
def rowExcToFatal (ts : String) (e : PyExc) : Fatal :=
  match e with
  | .csvError m => .logged (log_error_and_exit ts m)
  | _ => .uncaught e

/-- Disposition of a `RowFail`: a `sys.exit` terminates as logged, an
exception is routed by the enclosing `except csv.Error` clause. -/
def rowFailToFatal (ts : String) : RowFail → Fatal
  | .exit s => .logged s
  | .exc e => rowExcToFatal ts e

/-- Whether a fatal outcome went through the log-and-exit path (log entry
appended and used as the termination message). -/
def wentThroughLogAndExit : Fatal → Bool
  | .logged _ => true
  | .uncaught _ => false

/-- Model of `normalize_column_names`: map each header label through the
conversion table; on a lookup miss the source catches the KeyError and
calls `log_error_and_exit` with it. -/
def normalize_column_names (ts : String) : List String → Except RowFail (List String)
  | [] => .ok []
  | h :: t =>
    match List.lookup h expenditure_column_conversions with
    | some c =>
      match normalize_column_names ts t with
      | .ok rest => .ok (c :: rest)
      | .error f => .error f
    | none => .error (.exit (log_error_and_exit ts (keyErrorStr h)))

/-- Rendering of `psycopg2.sql.Identifier`: the string double-quoted, with
embedded double quotes doubled. -/
def quoteIdentGo : List Char → List Char
  | [] => []
  | c :: cs => if c = '"' then c :: c :: quoteIdentGo cs else c :: quoteIdentGo cs

/-- SQL identifier quoting applied by `sql.Identifier`. -/
def quoteIdent (s : String) : String :=
  "\"" ++ (⟨quoteIdentGo s.data⟩ : String) ++ "\""

/-- Rendering of one VALUES element: the source wraps each value in
`sql.Identifier`, which requires a string (a datetime raises TypeError
during query composition, before the try block). -/
def renderIdentValue : PyVal → Except PyExc String
  | .str s => .ok (quoteIdent s)
  | .date _ _ _ => .error (.typeError "Identifier expects a string argument")

/-- Text of the composed INSERT statement. -/
def mkInsertQuery (cols vals : List String) : String :=
  "INSERT INTO expenditures (" ++ strIntercalate ", " cols ++ ") VALUES (" ++
    strIntercalate ", " vals ++ ") RETURNING id"

/-- Arguments of the `cur.execute` call made by `insert_into_db`: the
composed SQL text, and the bound-parameter list, which is empty because
the source calls `execute` with the query alone and splices the values
into the text as quoted identifiers. -/
def buildExecuteArgs (kv : List (String × PyVal)) :
    Except PyExc (String × List String) :=
  match (kv.map (fun p => p.2)).mapM renderIdentValue with
  | .error e => .error e
  | .ok rendered =>
    .ok (mkInsertQuery (kv.map (fun p => quoteIdent p.1)) rendered, [])

/-- Abstract destination store: connection acquisition, and execution of a
statement text with a bound-parameter list, returning the `fetchone`
result.  Errors stand for `psycopg2.Error`. -/
structure DB where
  connect : Except String Unit
  exec : String → List String → Except String (Option (List Int))

/-- Model of `insert_into_db`.  The connection is opened before the try
block (a failure there raises an uncaught `psycopg2.Error`); only
execute/fetch/commit failures are caught and routed through
`log_error_and_exit`. -/
def insert_into_db (ts : String) (db : DB) (kv : List (String × PyVal)) :
    Except RowFail (Option (List Int)) :=
  match db.connect with
  | .error m => .error (.exc (.pgError m))
  | .ok _ =>
    match buildExecuteArgs kv with
    | .error e => .error (.exc e)
    | .ok args =>
      match db.exec args.1 args.2 with
      | .error m => .error (.exit (log_error_and_exit ts m))
      | .ok r => .ok r

/-- Model of the expression `row.split(",")` in `process_row`: `row` is
the list yielded by `csv.reader`, and a Python list has no `split`
attribute, so the call unconditionally raises AttributeError. -/
def listSplitComma (_row : List String) : Except PyExc (List String) :=
  .error (.attributeError "list object has no attribute split")

/-- Model of `process_row`: split the row object, build the record, insert
it. -/
def process_row (ts : String) (db : DB) (row : List String)
    (column_names : List String) : Except RowFail (Option (List Int)) :=
  match listSplitComma row with
  | .error e => .error (.exc e)
  | .ok expense_row =>
    match buildRecord expense_row column_names [] with
    | .error e => .error (.exc e)
    | .ok kv => insert_into_db ts db kv

/-- One input file as seen through `csv.reader`: the rows it yields, and
optionally the (rendered) message of a `csv.Error` raised while reading. -/
structure FileRows where
  rows : List (List String)
  readErr : Option String

/-- The row loop of `process_csvs` for one file: the first row (and any
row while `column_names` is still falsy) goes to the header normalizer,
later rows to `process_row`; the printed ids are collected. -/
def runRows (ts : String) (db : DB) :
    List (List String) → List String → Except Fatal (List (Option (List Int)))
  | [], _ => .ok []
  | row :: rest, cn =>
    if cn.isEmpty then
      match normalize_column_names ts row with
      | .error f => .error (rowFailToFatal ts f)
      | .ok cn2 => runRows ts db rest cn2
    else
      match process_row ts db row cn with
      | .error f => .error (rowFailToFatal ts f)
      | .ok eid =>
        match runRows ts db rest cn with
        | .error f => .error f
        | .ok ids => .ok (eid :: ids)

/-- One file of `process_csvs`, including the `except csv.Error` handler
for errors raised by the reader itself. -/
def runFile (ts : String) (db : DB) (f : FileRows) :
    Except Fatal (List (Option (List Int))) :=
  match runRows ts db f.rows [] with
  | .error x => .error x
  | .ok ids =>
    match f.readErr with
    | some m => .error (rowExcToFatal ts (.csvError m))
    | none => .ok ids

/-- Model of `process_csvs`: process the files in order, aborting on the
first fatal outcome; on success the collected printed ids are returned. -/
def process_csvs (ts : String) (db : DB) :
    List FileRows → Except Fatal (List (Option (List Int)))
  | [] => .ok []
  | f :: fs =>
    match runFile ts db f with
    | .error x => .error x
    | .ok ids =>
      match process_csvs ts db fs with
      | .error x => .error x
      | .ok rest => .ok (ids ++ rest)

/-- A store that accepts everything and generates id 7. -/
def dbStub : DB := ⟨.ok (), fun _ _ => .ok (some [7])⟩

/-- A store whose statement execution always fails. -/
def dbFailing : DB := ⟨.ok (), fun _ _ => .error "boom"⟩

/-- A member of `dictInsert d k v` is the inserted pair or a member of
`d`. -/
theorem dictInsert_mem {d : List (String × PyVal)} {k : String} {v : PyVal}
    {p : String × PyVal} (hp : p ∈ dictInsert d k v) : p = (k, v) ∨ p ∈ d := by
  unfold dictInsert at hp
  split at hp
  · rcases List.mem_map.mp hp with ⟨q, hq, heq⟩
    by_cases h : q.1 = k
    · left
      simp only [h, beq_self_eq_true, if_true] at heq
      exact heq.symm
    · right
      simp only [beq_iff_eq, h, if_false] at heq
      rwa [heq] at hq
  · rcases List.mem_append.mp hp with h | h
    · exact Or.inr h
    · exact Or.inl (by simpa using h)

/-- Looking up the key just overwritten by the map branch of
`dictInsert`. -/
theorem dictLookup_map_self {d : List (String × PyVal)} {k : String} {v : PyVal}
    (h : d.any (fun p => p.1 == k) = true) :
    dictLookup (d.map (fun p => if p.1 == k then (k, v) else p)) k = some v := by
  induction d with
  | nil => simp at h
  | cons p rest ih =>
    by_cases hp : p.1 = k
    · simp [dictLookup, hp]
    · have h2 : rest.any (fun p => p.1 == k) = true := by
        simpa [hp] using h
      have := ih h2
      simpa [dictLookup, hp] using this

/-- Looking up the key just appended by the append branch of
`dictInsert`. -/
theorem dictLookup_append_self {d : List (String × PyVal)} {k : String} {v : PyVal}
    (h : d.any (fun p => p.1 == k) = false) :
    dictLookup (d ++ [(k, v)]) k = some v := by
  induction d with
  | nil => simp [dictLookup]
  | cons p rest ih =>
    simp only [List.any_cons, Bool.or_eq_false_iff] at h
    have hp : (p.1 == k) = false := h.1
    have := ih h.2
    simpa [dictLookup, hp] using this

/-- After `dictInsert d k v`, looking up `k` yields `v`. -/
theorem dictLookup_insert_self (d : List (String × PyVal)) (k : String) (v : PyVal) :
    dictLookup (dictInsert d k v) k = some v := by
  unfold dictInsert
  split
  · exact dictLookup_map_self (by assumption)
  · rename_i h
    exact dictLookup_append_self (by simp only [Bool.not_eq_true] at h; exact h)

/-- The map branch of `dictInsert` leaves other keys unchanged. -/
theorem dictLookup_map_ne {k2 k : String} (hne : k2 ≠ k) (v : PyVal) :
    ∀ d : List (String × PyVal),
      dictLookup (d.map (fun p => if p.1 == k then (k, v) else p)) k2 = dictLookup d k2 := by
  intro d
  induction d with
  | nil => rfl
  | cons p rest ih =>
    by_cases hp : p.1 = k
    · have hk : (k == k2) = false := by
        simp [beq_iff_eq]
        exact fun hkk => hne hkk.symm
      have hp2 : (p.1 == k2) = false := by
        simp [beq_iff_eq, hp]
        exact fun hkk => hne hkk.symm
      simpa [dictLookup, hp, hk, hp2] using ih
    · by_cases hq : p.1 = k2
      · simp [dictLookup, beq_iff_eq, hp, hq, hne]
      · simpa [dictLookup, beq_iff_eq, hp, hq] using ih

/-- The append branch of `dictInsert` leaves other keys unchanged. -/
theorem dictLookup_append_ne {k2 k : String} (hne : k2 ≠ k) (v : PyVal) :
    ∀ d : List (String × PyVal),
      dictLookup (d ++ [(k, v)]) k2 = dictLookup d k2 := by
  intro d
  induction d with
  | nil =>
    have hk : (k == k2) = false := by
      simp [beq_iff_eq]
      exact fun hkk => hne hkk.symm
    simp [dictLookup, hk]
  | cons p rest ih =>
    by_cases hq : p.1 = k2
    · simp [dictLookup, hq]
    · simpa [dictLookup, beq_iff_eq, hq] using ih

/-- After `dictInsert d k v`, other keys look up as before. -/
theorem dictLookup_insert_ne {k2 k : String} (hne : k2 ≠ k)
    (d : List (String × PyVal)) (v : PyVal) :
    dictLookup (dictInsert d k v) k2 = dictLookup d k2 := by
  unfold dictInsert
  split
  · exact dictLookup_map_ne hne v d
  · exact dictLookup_append_ne hne v d

/-- A successful `buildRecord` changes the lookup of no key outside the
column list. -/
theorem buildRecord_lookup_not_mem :
    ∀ (cells cols : List String) (acc rec : List (String × PyVal)),
      buildRecord cells cols acc = .ok rec →
      ∀ k, k ∉ cols → dictLookup rec k = dictLookup acc k := by
  intro cells
  induction cells with
  | nil =>
    intro cols acc rec h k _
    simp only [buildRecord] at h
    cases h
    rfl
  | cons v vs ih =>
    intro cols acc rec h k hk
    cases cols with
    | nil => simp [buildRecord] at h
    | cons c cs =>
      simp only [buildRecord] at h
      cases hval : normalizeCell c v with
      | error e => rw [hval] at h; simp at h
      | ok val =>
        rw [hval] at h
        have hkc : k ≠ c := fun he => hk (he ▸ List.mem_cons_self c cs)
        have hkcs : k ∉ cs := fun hm => hk (List.mem_cons_of_mem c hm)
        have := ih cs _ rec h k hkcs
        by_cases ht : truthy val = true
        · rw [this, if_pos ht]
          exact dictLookup_insert_ne hkc acc val
        · rw [this, if_neg ht]

/-- Every value in a record built by a successful `buildRecord` run from a
truthy accumulator is truthy. -/
theorem buildRecord_truthy :
    ∀ (cells cols : List String) (acc rec : List (String × PyVal)),
      buildRecord cells cols acc = .ok rec →
      (∀ p ∈ acc, truthy p.2 = true) →
      ∀ p ∈ rec, truthy p.2 = true := by
  intro cells
  induction cells with
  | nil =>
    intro cols acc rec h hacc
    simp only [buildRecord] at h
    cases h
    exact hacc
  | cons v vs ih =>
    intro cols acc rec h hacc
    cases cols with
    | nil => simp [buildRecord] at h
    | cons c cs =>
      simp only [buildRecord] at h
      cases hval : normalizeCell c v with
      | error e => rw [hval] at h; simp at h
      | ok val =>
        rw [hval] at h
        refine ih cs _ rec h ?_
        by_cases ht : truthy val = true
        · simp only [ht, if_true]
          intro p hp
          rcases dictInsert_mem hp with rfl | hp2
          · exact ht
          · exact hacc p hp2
        · simp only [ht, if_false]
          exact hacc

/-- Positional lookup property of a successful `buildRecord` run: with
pairwise distinct column names and an accumulator disjoint from them, the
final record maps column `i` to the normalized value of cell `i` when that
value is truthy, and omits it when it is falsy. -/
theorem buildRecord_lookup_pos :
    ∀ (cells cols : List String) (acc rec : List (String × PyVal)),
      buildRecord cells cols acc = .ok rec →
      cols.Nodup →
      (∀ k ∈ cols, dictLookup acc k = none) →
      ∀ i lbl cell v, cols.get? i = some lbl → cells.get? i = some cell →
        normalizeCell lbl cell = .ok v →
        dictLookup rec lbl = if truthy v then some v else none := by
  intro cells
  induction cells with
  | nil =>
    intro cols acc rec _ _ _ i lbl cell v _ hcell
    simp at hcell
  | cons v0 vs ih =>
    intro cols acc rec h hnodup hdisj i lbl cell v hlbl hcell hnorm
    cases cols with
    | nil => simp at hlbl
    | cons c cs =>
      simp only [buildRecord] at h
      cases hval : normalizeCell c v0 with
      | error e => rw [hval] at h; simp at h
      | ok val =>
        rw [hval] at h
        have hcns : c ∉ cs := (List.nodup_cons.mp hnodup).1
        cases i with
        | zero =>
          simp only [List.get?] at hlbl hcell
          cases hlbl
          cases hcell
          rw [hnorm] at hval
          cases hval
          have hrec := buildRecord_lookup_not_mem vs cs _ rec h lbl hcns
          by_cases ht : truthy v = true
          · rw [hrec]
            simp only [ht, if_true]
            exact dictLookup_insert_self acc lbl v
          · rw [hrec]
            simp only [ht, if_false]
            exact hdisj lbl (List.mem_cons_self lbl cs)
        | succ j =>
          simp only [List.get?] at hlbl hcell
          refine ih cs _ rec h (List.nodup_cons.mp hnodup).2 ?_ j lbl cell v hlbl hcell hnorm
          intro k hk
          have hkc : k ≠ c := fun he => hcns (he ▸ hk)
          have hbase : dictLookup acc k = none := hdisj k (List.mem_cons_of_mem c hk)
          by_cases ht : truthy val = true
          · simp only [ht, if_true]
            rw [dictLookup_insert_ne hkc acc val]
            exact hbase
          · simp only [ht, if_false]
            exact hbase

/-- A row longer than the column list fails with IndexError, provided its
first `cols.length` cells process successfully. -/
theorem buildRecord_overflow :
    ∀ (cols cells : List String) (acc r : List (String × PyVal)),
      cols.length < cells.length →
      buildRecord (cells.take cols.length) cols acc = .ok r →
      buildRecord cells cols acc = .error .indexError := by
  intro cols
  induction cols with
  | nil =>
    intro cells acc r hlt _
    cases cells with
    | nil => simp at hlt
    | cons v vs => rfl
  | cons c cs ih =>
    intro cells acc r hlt hpre
    cases cells with
    | nil => simp at hlt
    | cons v vs =>
      simp only [List.length_cons, List.take_succ_cons] at hpre
      simp only [buildRecord] at hpre ⊢
      cases hval : normalizeCell c v with
      | error e => rw [hval] at hpre; simp at hpre
      | ok val =>
        rw [hval] at hpre
        exact ih vs _ r (Nat.lt_of_succ_lt_succ (by simpa using hlt)) hpre

/-- When every label is in the table, the header normalizer returns the
labelwise conversions. -/
theorem nmc_ok_of_all_mapped (ts : String) :
    ∀ header : List String,
      (∀ h ∈ header, (List.lookup h expenditure_column_conversions).isSome = true) →
      normalize_column_names ts header =
        .ok (header.map fun h => (List.lookup h expenditure_column_conversions).getD "") := by
  intro header
  induction header with
  | nil => intro _; rfl
  | cons h t ih =>
    intro hall
    rcases Option.isSome_iff_exists.mp (hall h (List.mem_cons_self h t)) with ⟨c, hc⟩
    have ht := ih (fun x hx => hall x (List.mem_cons_of_mem h hx))
    simp [normalize_column_names, hc, ht]

/-- When the first unmapped label is `l`, the header normalizer exits
through the log-and-exit path naming `l`. -/
theorem nmc_error_of_find (ts : String) :
    ∀ (header : List String) (l : String),
      header.find? (fun h => (List.lookup h expenditure_column_conversions).isNone) = some l →
      normalize_column_names ts header =
        .error (.exit (log_error_and_exit ts (keyErrorStr l))) := by
  intro header
  induction header with
  | nil => intro l hl; simp at hl
  | cons h t ih =>
    intro l hl
    cases hc : List.lookup h expenditure_column_conversions with
    | none =>
      rw [List.find?_cons_of_pos _ (by simp [hc])] at hl
      cases hl
      simp [normalize_column_names, hc]
    | some c =>
      rw [List.find?_cons_of_neg _ (by simp [hc])] at hl
      simp [normalize_column_names, hc, ih l hl]

/-- Claim C1: on a two-row file whose header row maps 1:1 to three
canonical fields and whose data row has a blank cell for one of them, the
pipeline never hands the Loader a two-key mapping and never reports the
identifier of the insert: `process_row` calls `split` on the list yielded
by the csv reader, so the run dies with an uncaught AttributeError on the
first data row. -/
theorem c1_end_to_end_attribute_error :
    process_csvs "TS" dbStub
        [⟨[["PAYEE", "PURPOSE", "PROGRAM"], ["SMITH", "", "X"]], none⟩] =
      .error (.uncaught (.attributeError "list object has no attribute split")) := rfl

/-- Claim C2: for the record mapping amount to "1234.50", the Loader
composes an INSERT whose column list is the key and whose VALUES element
is the value spliced into the statement text as a double-quoted SQL
identifier, executed with an empty bound-parameter list (not parameterized
binding); the call result is whatever the store returns. -/
theorem c2_loader_interpolates_values :
    buildExecuteArgs [("amount", PyVal.str "1234.50")] =
      .ok ("INSERT INTO expenditures (\"amount\") VALUES (\"1234.50\") RETURNING id", [])
    ∧ insert_into_db "TS" dbStub [("amount", PyVal.str "1234.50")] = .ok (some [7]) :=
  ⟨rfl, rfl⟩

/-- Claim C3, counterexample: a date-format failure (raw value
"13-05-2015") raises a ValueError that the row loop routes as an uncaught
exception, not through the log-and-exit path, contradicting the claim that
every error kind is funneled through that single path. -/
theorem c3_counterexample :
    normalizeCell "record_date" "13-05-2015" =
      .error (.valueError (strptimeMsg "13-05-2015"))
    ∧ wentThroughLogAndExit
        (rowFailToFatal "TS" (.exc (.valueError (strptimeMsg "13-05-2015")))) = false :=
  ⟨rfl, rfl⟩

/-- Claim C3, amended: an exception raised in the row loop goes through
the log-and-exit path exactly when it is a csv.Error; store execution
failures inside the insert try block and header lookup misses do go
through the log-and-exit path. -/
theorem c3_error_routing (ts m : String) (e : PyExc) :
    (wentThroughLogAndExit (rowExcToFatal ts e) = true ↔ ∃ s, e = .csvError s)
    ∧ (∀ db : DB, db.connect = .ok () → (∀ q ps, db.exec q ps = .error m) →
        ∀ (kv : List (String × PyVal)) args, buildExecuteArgs kv = .ok args →
          insert_into_db ts db kv = .error (.exit (log_error_and_exit ts m)))
    ∧ (∀ (hd : String) (tl : List String),
        List.lookup hd expenditure_column_conversions = none →
          normalize_column_names ts (hd :: tl) =
            .error (.exit (log_error_and_exit ts (keyErrorStr hd)))) := by
  refine ⟨?_, ?_, ?_⟩
  · cases e <;> simp [rowExcToFatal, wentThroughLogAndExit]
  · intro db hc hx kv args ha
    simp [insert_into_db, hc, ha, hx]
  · intro hd tl h
    simp [normalize_column_names, h]

/-- Claim C3, witness for the amended theorem: a csv.Error is logged, and
a failing statement execution terminates through the log-and-exit path. -/
theorem c3_error_routing_witness :
    wentThroughLogAndExit (rowExcToFatal "T" (.csvError "bad line")) = true
    ∧ insert_into_db "T" dbFailing [("amount", PyVal.str "1.00")] =
        .error (.exit (log_error_and_exit "T" "boom")) := by
  constructor
  · exact (c3_error_routing "T" "boom" (.csvError "bad line")).1.mpr ⟨"bad line", rfl⟩
  · exact (c3_error_routing "T" "boom" (.csvError "x")).2.1 dbFailing rfl
      (fun _ _ => rfl) [("amount", PyVal.str "1.00")] _ rfl

/-- Claim C4: a header sequence whose every label is a key of the mapping
normalizes to the canonical names of the same length, in order (element i
is the conversion of label i); a sequence with an unmapped label fails
fatally through the log-and-exit path naming its first unmapped label. -/
theorem c4_header_normalizer (ts : String) (header : List String) :
    ((∀ h ∈ header, (List.lookup h expenditure_column_conversions).isSome = true) →
      normalize_column_names ts header =
        .ok (header.map fun h => (List.lookup h expenditure_column_conversions).getD "")
      ∧ (header.map fun h => (List.lookup h expenditure_column_conversions).getD "").length
          = header.length
      ∧ ∀ i lbl, header.get? i = some lbl →
          ∃ c, List.lookup lbl expenditure_column_conversions = some c
            ∧ (header.map fun h =>
                (List.lookup h expenditure_column_conversions).getD "").get? i = some c)
    ∧ ∀ l, header.find? (fun h => (List.lookup h expenditure_column_conversions).isNone)
        = some l →
        normalize_column_names ts header =
          .error (.exit (log_error_and_exit ts (keyErrorStr l))) := by
  constructor
  · intro hall
    refine ⟨nmc_ok_of_all_mapped ts header hall, by simp, ?_⟩
    intro i lbl hi
    rcases Option.isSome_iff_exists.mp (hall lbl (List.get?_mem hi)) with ⟨c, hc⟩
    refine ⟨c, hc, ?_⟩
    rw [List.get?_map, hi]
    simp [hc]
  · intro l hl
    exact nmc_error_of_find ts header l hl

/-- Claim C4, witness: a fully mapped header (including the legacy empty
label) normalizes in order, and a header containing "WAT" exits naming
"WAT". -/
theorem c4_header_normalizer_witness :
    normalize_column_names "T" ["PAYEE", ""] = .ok ["payee", "old_payee"]
    ∧ normalize_column_names "T" ["PAYEE", "WAT"] =
        .error (.exit (log_error_and_exit "T" (keyErrorStr "WAT"))) := by
  constructor
  · exact ((c4_header_normalizer "T" ["PAYEE", ""]).1 (by decide)).1
  · exact (c4_header_normalizer "T" ["PAYEE", "WAT"]).2 "WAT" (by decide)

/-- Claim C5: the office value "0001John Smith" (numeric 4-prefix) has the
prefix stripped and text normalization applied, which yields "Johnsmith"
(the translate passes delete every space before title-casing), and
"NoPrefixHere" is returned unchanged with no text normalization. -/
theorem c5_office_normalization :
    normalizeCell "office" "0001John Smith" = .ok (.str "Johnsmith")
    ∧ normalizeCell "office" "NoPrefixHere" = .ok (.str "NoPrefixHere") :=
  ⟨rfl, rfl⟩

/-- Claim C6, counterexample: the strptime pattern is not case-sensitive
and the day need not be two digits: "JANUARY-05-2015" and "January-5-2015"
both parse to 2015-01-05. -/
theorem c6_counterexample :
    normalizeCell "record_date" "JANUARY-05-2015" = .ok (.date 2015 1 5)
    ∧ normalizeCell "record_date" "January-5-2015" = .ok (.date 2015 1 5) :=
  ⟨rfl, rfl⟩

/-- Claim C6, amended: every date-typed field parses its raw value with
strptime "%B-%d-%Y" (full month name, case-insensitively; one- or
two-digit day; four-digit year); "January-05-2015" parses to 2015-01-05,
a non-matching value such as "13-05-2015" raises a ValueError, which is
fatal (it propagates uncaught). -/
theorem c6_date_parsing (f v : String) (y m d : Nat)
    (hf : f = "start_date" ∨ f = "end_date" ∨ f = "record_date") :
    (pyStrptimeBdY v = some (y, m, d) → normalizeCell f v = .ok (.date y m d))
    ∧ (pyStrptimeBdY v = none →
        normalizeCell f v = .error (.valueError (strptimeMsg v)))
    ∧ pyStrptimeBdY "January-05-2015" = some (2015, 1, 5)
    ∧ pyStrptimeBdY "13-05-2015" = none
    ∧ rowFailToFatal "TS" (.exc (.valueError (strptimeMsg "13-05-2015"))) =
        .uncaught (.valueError (strptimeMsg "13-05-2015")) := by
  have base : normalizeCell f v =
      match pyStrptimeBdY v with
      | some (y, m, d) => .ok (.date y m d)
      | none => .error (.valueError (strptimeMsg v)) := by
    rcases hf with rfl | rfl | rfl <;> rfl
  refine ⟨?_, ?_, rfl, rfl, rfl⟩
  · intro h
    rw [base, h]
  · intro h
    rw [base, h]

/-- Claim C6, witness for the amended theorem: a date field parses a
well-formed value and rejects a malformed one. -/
theorem c6_date_parsing_witness :
    normalizeCell "end_date" "March-01-2000" = .ok (.date 2000 3 1)
    ∧ normalizeCell "start_date" "nope" = .error (.valueError (strptimeMsg "nope")) :=
  ⟨(c6_date_parsing "end_date" "March-01-2000" 2000 3 1 (Or.inr (Or.inl rfl))).1 rfl,
   (c6_date_parsing "start_date" "nope" 0 0 0 (Or.inl rfl)).2.1 rfl⟩

/-- Claim C7: the amount field is parsed as a float and reformatted with
exactly two digits after the decimal point ("1234.5" to "1234.50", "1234"
to "1234.00"); a value that does not parse raises a ValueError, which is
fatal (it propagates uncaught). -/
theorem c7_amount_normalization (s : String) :
    normalizeCell "amount" "1234.5" = .ok (.str "1234.50")
    ∧ normalizeCell "amount" "1234" = .ok (.str "1234.00")
    ∧ (pyFloatParse s = none →
        normalizeCell "amount" s = .error (.valueError (floatMsg s)))
    ∧ rowFailToFatal "TS" (.exc (.valueError (floatMsg "abc"))) =
        .uncaught (.valueError (floatMsg "abc")) := by
  have base : normalizeCell "amount" s =
      match pyFloatParse s with
      | some f => .ok (.str (pyFormatF2 f))
      | none => .error (.valueError (floatMsg s)) := rfl
  exact ⟨rfl, rfl, fun h => by rw [base, h], rfl⟩

/-- Claim C7, witness: the non-numeric value "abc" fails. -/
theorem c7_amount_normalization_witness :
    normalizeCell "amount" "abc" = .error (.valueError (floatMsg "abc")) :=
  (c7_amount_normalization "abc").2.2.1 rfl

/-- Claim C8, counterexample: no MalformedRowError exists; a row shorter
than the header is processed for the positions it has (and inserted), and
a longer row raises an IndexError. -/
theorem c8_counterexample :
    buildRecord ["a"] ["payee", "purpose"] [] = .ok [("payee", PyVal.str "A")]
    ∧ buildRecord ["a", "b", "c"] ["payee", "purpose"] [] = .error .indexError :=
  ⟨rfl, rfl⟩

/-- Claim C8, amended: a data row longer than the header raises an
uncaught IndexError at the first excess position (given that its first
header-many cells normalize successfully); a row shorter than the header
is processed normally for the positions it has. -/
theorem c8_row_length_mismatch (cells cols : List String)
    (acc r : List (String × PyVal))
    (hlt : cols.length < cells.length)
    (hpre : buildRecord (cells.take cols.length) cols acc = .ok r) :
    buildRecord cells cols acc = .error .indexError
    ∧ buildRecord ["a"] ["payee", "purpose"] [] = .ok [("payee", PyVal.str "A")] :=
  ⟨buildRecord_overflow cols cells acc r hlt hpre, rfl⟩

/-- Claim C8, witness for the amended theorem: a three-cell row against a
two-column header raises IndexError. -/
theorem c8_row_length_mismatch_witness :
    buildRecord ["a", "b", "c"] ["payee", "purpose"] [] = .error .indexError :=
  (c8_row_length_mismatch ["a", "b", "c"] ["payee", "purpose"] []
      [("payee", PyVal.str "A"), ("purpose", PyVal.str "b")] (by decide) rfl).1

/-- Claim C9: a record built from a row and a duplicate-free canonical
field sequence contains no falsy (empty) value; a position whose cell
normalizes to the empty string is omitted, and every position whose cell
normalizes to a truthy value is present with exactly that value. -/
theorem c9_record_builder (cells cols : List String) (rec : List (String × PyVal))
    (hlen : cells.length = cols.length) (hnodup : cols.Nodup)
    (hok : buildRecord cells cols [] = .ok rec) :
    (∀ p ∈ rec, truthy p.2 = true)
    ∧ ∀ i lbl cell v, cols.get? i = some lbl → cells.get? i = some cell →
        normalizeCell lbl cell = .ok v →
        dictLookup rec lbl = if truthy v then some v else none := by
  constructor
  · exact buildRecord_truthy cells cols [] rec hok (by intro p hp; simp at hp)
  · intro i lbl cell v h1 h2 h3
    exact buildRecord_lookup_pos cells cols [] rec hok hnodup
      (fun _ _ => rfl) i lbl cell v h1 h2 h3

/-- Claim C9, witness: from cells ["SMITH", "", "x"] against fields
[payee, purpose, program_type], the purpose key (whose cell normalizes to
the empty string) is absent and payee is present with its normalized
value. -/
theorem c9_record_builder_witness :
    dictLookup [("payee", PyVal.str "Smith"), ("program_type", PyVal.str "x")] "purpose"
      = none
    ∧ dictLookup [("payee", PyVal.str "Smith"), ("program_type", PyVal.str "x")] "payee"
      = some (PyVal.str "Smith") := by
  have h := c9_record_builder ["SMITH", "", "x"] ["payee", "purpose", "program_type"]
    [("payee", PyVal.str "Smith"), ("program_type", PyVal.str "x")] rfl (by decide) rfl
  constructor
  · have h1 := h.2 1 "purpose" "" (PyVal.str "") rfl rfl rfl
    rwa [if_neg (show ¬ truthy (PyVal.str "") = true by decide)] at h1
  · have h0 := h.2 0 "payee" "SMITH" (PyVal.str "Smith") rfl rfl rfl
    rwa [if_pos (show truthy (PyVal.str "Smith") = true from rfl)] at h0

/-- Claim C10: for the fiscal-year field an empty raw value is neither
passed through nor dropped: the empty string is not all digits, its
whitespace split is empty, and taking the last element raises IndexError,
which is not routed through the log-and-exit path. -/
theorem c10_fiscal_year_empty :
    normalizeCell "fiscal_year" "" = .error .indexError
    ∧ wentThroughLogAndExit (rowFailToFatal "TS" (.exc .indexError)) = false :=
  ⟨rfl, rfl⟩
